import Mathlib

/-!
Shallow embedding of the meta_planner safety core
(`analytical_point_mass_value_function.cpp` and `balls_in_box.cpp`).

Real numbers (`double` in the source) are modelled by an arbitrary linear
ordered field `K`; concrete evaluations instantiate `K := ℚ`, and the
calculus facts instantiate `K := ℝ`.  A comparison `v.norm() <= r` on an
Eigen `Vector3d` is embedded in squared form (`0 ≤ r ∧ ‖v‖² ≤ r²`), which
is equivalent over the reals and stays decidable over `ℚ`.
-/

set_option autoImplicit false

namespace Tracking

variable {K : Type} [LinearOrderedField K]

/-- Full-state index of spatial axis `dim`'s position component; the state
layout is three positions followed by three velocities (`p_dim_ = 3`). -/
def posIdx (dim : Fin 3) : Fin 6 := ⟨dim.val, by omega⟩

/-- Full-state index of spatial axis `dim`'s velocity component
(`p_dim_ + dim` in the source). -/
def velIdx (dim : Fin 3) : Fin 6 := ⟨3 + dim.val, by omega⟩

/-- The all-zeros 6-dimensional state (`VectorXd::Zero(6)`). -/
def zeroState : Fin 6 → K := fun _ => 0

/-- Squared Euclidean norm of a 3-vector. -/
def sqNorm (v : Fin 3 → K) : K := v 0 * v 0 + v 1 * v 1 + v 2 * v 2

/-- Embedding of `v.norm() <= r`: true iff `r` is non-negative and the
squared norm is at most `r * r` (equivalent over the reals since the norm
is non-negative). -/
def normLeB (v : Fin 3 → K) (r : K) : Bool :=
  decide (0 ≤ r) && decide (sqNorm v ≤ r * r)

/-- Embedding of `v.norm() < r`: true iff `r` is positive and the squared
norm is strictly below `r * r`. -/
def normLtB (v : Fin 3 → K) (r : K) : Bool :=
  decide (0 < r) && decide (sqNorm v < r * r)

/-- The constant `kSmallNumber = 1e-8` from `balls_in_box.cpp`. -/
def kSmallNumber : K := 1 / 100000000

/-- Fields of `AnalyticalPointMassValueFunction` after construction.  The
class is const-only in the source, so only the stored parameters matter;
the dynamics pointer is used only inside the constructor and is therefore
a parameter of `Create` below rather than a stored field. -/
structure AnalyticalPointMassValueFunction (K : Type) where
  u_max : Fin 3 → K
  u_min : Fin 3 → K
  d_v : Fin 3 → K
  d_a : Fin 3 → K
  a_max : Fin 3 → K
  u2a : Fin 3 → K
  max_planner_speed : Fin 3 → K
  expand : Fin 3 → K

namespace AnalyticalPointMassValueFunction

/-- Embedding of the constructor (reached through the factory `Create`).
`dynamics` stands for `dynamics_->Evaluate`; the constructor evaluates it
once at the zero state with the maximum control, takes absolute values of
the last three components for `a_max_`, computes the control gains `u2a_`
and the boundary expansion `expand_`.  `0.5` is written `1/2`.  Note that
no parameter validation of any kind is performed. -/
def Create (dynamics : (Fin 6 → K) → (Fin 3 → K) → (Fin 6 → K))
    (max_planner_speed max_tracker_control min_tracker_control
     max_vel_disturbance max_acc_disturbance expansion_vel : Fin 3 → K) :
    AnalyticalPointMassValueFunction K :=
  let x_dot_max := dynamics zeroState max_tracker_control
  let a_max : Fin 3 → K := fun i => |x_dot_max (velIdx i)|
  { u_max := max_tracker_control
    u_min := min_tracker_control
    d_v := max_vel_disturbance
    d_a := max_acc_disturbance
    a_max := a_max
    u2a := fun i =>
      x_dot_max (velIdx i) / ((1/2) * (max_tracker_control i - min_tracker_control i))
    max_planner_speed := max_planner_speed
    expand := fun i =>
      (expansion_vel i * (2 * max_planner_speed i + (1/2) * expansion_vel i)
        / (a_max i - max_acc_disturbance i)) }

/-- Value surface A for axis `dim` ("+ for x below the convex Acceleration
parabola"), exactly as computed in `Value`, `Gradient` and
`OptimalControl`. -/
def vA (f : AnalyticalPointMassValueFunction K) (state : Fin 6 → K) (dim : Fin 3) : K :=
  let x := state (posIdx dim)
  let v := state (velIdx dim)
  let v_ref := f.max_planner_speed dim
  (-x + ((1/2) * (v - v_ref) * (v - v_ref) - v_ref * v_ref * (1 + f.expand dim))
    / (f.a_max dim - f.d_a dim))

/-- Value surface B for axis `dim` ("+ for x above the concave Braking
parabola"). -/
def vB (f : AnalyticalPointMassValueFunction K) (state : Fin 6 → K) (dim : Fin 3) : K :=
  let x := state (posIdx dim)
  let v := state (velIdx dim)
  let v_ref := f.max_planner_speed dim
  (x - (-(1/2) * (v + v_ref) * (v + v_ref) + v_ref * v_ref * (1 + f.expand dim))
    / (f.a_max dim - f.d_a dim))

/-- Per-axis value: the maximum of the two surfaces. -/
def axisValue (f : AnalyticalPointMassValueFunction K) (state : Fin 6 → K)
    (dim : Fin 3) : K :=
  max (f.vA state dim) (f.vB state dim)

/-- Embedding of `Value`: the source folds `std::max` over the three axes
starting from `-infinity`, which for the fixed `p_dim_ = 3` collapses to
the three-way maximum of the axis values. -/
def Value (f : AnalyticalPointMassValueFunction K) (state : Fin 6 → K) : K :=
  max (max (f.axisValue state 0) (f.axisValue state 1)) (f.axisValue state 2)

/-- Embedding of `Gradient`: the source zero-initializes a 6-vector and,
for every axis, writes the position and velocity partials of whichever
surface wins the comparison `V_A > V_B`; every component belongs to some
axis, so the function is given componentwise. -/
def Gradient (f : AnalyticalPointMassValueFunction K) (state : Fin 6 → K) :
    Fin 6 → K := fun j =>
  if h : j.val < 3 then
    let dim : Fin 3 := ⟨j.val, h⟩
    if f.vA state dim > f.vB state dim then -1 else 1
  else
    let dim : Fin 3 := ⟨j.val - 3, by omega⟩
    if f.vA state dim > f.vB state dim then
      (state (velIdx dim) - f.max_planner_speed dim) / (f.a_max dim - f.d_a dim)
    else
      (state (velIdx dim) + f.max_planner_speed dim) / (f.a_max dim - f.d_a dim)

/-- The `if (false)` guard on the "inside rule" branch of `OptimalControl`,
kept as a named constant so that the disabled branch stays in the
embedding. -/
def insideRuleEnabled : Bool := false

/-- Embedding of `OptimalControl` (a `Vector3d` in the source): per axis it
computes the two surfaces, the acceleration- and deceleration-producing
extremes from the sign of `u2a_`, and applies the inside rule (disabled)
or the outside rule. -/
def OptimalControl (f : AnalyticalPointMassValueFunction K) (state : Fin 6 → K) :
    Fin 3 → K := fun dim =>
  let x := state (posIdx dim)
  let V_A := f.vA state dim
  let V_B := f.vB state dim
  let u_acc := if f.u2a dim > 0 then f.u_max dim else f.u_min dim
  let u_dec := if f.u2a dim > 0 then f.u_min dim else f.u_max dim
  if insideRuleEnabled then
    if V_A > V_B then u_acc else u_dec
  else
    if x ≥ 0 then
      if V_A < 0 then u_dec else u_acc
    else
      if V_B < 0 then u_acc else u_dec

/-- Embedding of `Priority`: normalizes `Value` between two fractions of
the value at the zero ("hover") state and clamps to `[0, 1]`. -/
def Priority (f : AnalyticalPointMassValueFunction K) (state : Fin 6 → K) : K :=
  let V := f.Value state
  let relative_high : K := 20 / 100
  let relative_low : K := 5 / 100
  let V_safest := f.Value zeroState
  let V_high := relative_high * V_safest
  let V_low := relative_low * V_safest
  1 - min (max 0 ((V - V_low) / (V_high - V_low))) 1

/-- Embedding of `TrackingBound` for a spatial dimension. -/
def TrackingBound (f : AnalyticalPointMassValueFunction K) (dim : Fin 3) : K :=
  let v_ref := f.max_planner_speed dim
  ((1/2) * (v_ref + f.d_v dim) * (v_ref + f.d_v dim) * (1 + f.expand dim)
    / (f.a_max dim - f.d_a dim))

/-- Embedding of `SwitchingTrackingBound`: for point-mass-to-point-mass
switches it is the incoming value function's own tracking bound. -/
def SwitchingTrackingBound (_f : AnalyticalPointMassValueFunction K) (dim : Fin 3)
    (incoming : AnalyticalPointMassValueFunction K) : K :=
  incoming.TrackingBound dim

end AnalyticalPointMassValueFunction

/-- State of a `BallsInBox` environment: the box bounds inherited from
`Box` and the parallel obstacle-center / obstacle-radius vectors. -/
structure BallsInBox (K : Type) where
  lower : Fin 3 → K
  upper : Fin 3 → K
  points : List (Fin 3 → K)
  radii : List K

namespace BallsInBox

/-- Embedding of the factory `Create` composed with the `Box` base
constructor: the obstacle vectors start empty.  (The bound fields are set
by the `Box` base class, whose source is outside `src/`; they are taken
as parameters here.) -/
def create (lower upper : Fin 3 → K) : BallsInBox K :=
  { lower := lower, upper := upper, points := [], radii := [] }

/-- The corner of the axis-aligned tracking-bound box around `position`
closest to the obstacle center `p`, as computed inside `IsValid`. -/
def boundCorner (incoming outgoing : AnalyticalPointMassValueFunction K)
    (position p : Fin 3 → K) : Fin 3 → K := fun j =>
  let bound := outgoing.SwitchingTrackingBound j incoming
  if position j - p j > 0 then position j - bound else position j + bound

/-- Embedding of `IsValid`.  The early-return loops become conjunctions:
the position must clear every face by the switching tracking bound, and
for every obstacle both the nominal position and the nearest corner of
the rectangular tracking-bound box must lie strictly outside the
obstacle's sphere. -/
def IsValid (B : BallsInBox K)
    (incoming outgoing : AnalyticalPointMassValueFunction K)
    (position : Fin 3 → K) : Bool :=
  ((List.finRange 3).all fun i =>
    let bound := outgoing.SwitchingTrackingBound i incoming
    !(decide (position i < B.lower i + bound) ||
      decide (position i > B.upper i - bound))) &&
  ((B.points.zip B.radii).all fun pr =>
    !normLeB (position - pr.1) pr.2 &&
    !normLeB (boundCorner incoming outgoing position pr.1 - pr.1) pr.2)

/-- The loop body of `SenseObstacles`: walks the zipped obstacle list in
order and keeps exactly the entries within sensing range. -/
def senseLoop (position : Fin 3 → K) (sensor_radius : K) :
    List ((Fin 3 → K) × K) → List (Fin 3 → K) × List K
  | [] => ([], [])
  | pr :: rest =>
    let acc := senseLoop position sensor_radius rest
    if normLeB (position - pr.1) (pr.2 + sensor_radius) then
      (pr.1 :: acc.1, pr.2 :: acc.2)
    else acc

/-- Embedding of `SenseObstacles`: clears the output vectors, fills them
from the loop, and returns whether at least one obstacle was found. -/
def SenseObstacles (B : BallsInBox K) (position : Fin 3 → K) (sensor_radius : K) :
    List (Fin 3 → K) × List K × Bool :=
  let res := senseLoop position sensor_radius (B.points.zip B.radii)
  (res.1, res.2, decide (0 < res.1.length))

/-- Embedding of `IsObstacle`: membership up to the `1e-8` tolerance on
both center and radius. -/
def IsObstacle (B : BallsInBox K) (obstacle_position : Fin 3 → K)
    (obstacle_radius : K) : Bool :=
  (B.points.zip B.radii).any fun pr =>
    normLtB (obstacle_position - pr.1) kSmallNumber &&
    decide (|obstacle_radius - pr.2| < kSmallNumber)

/-- Embedding of `AddObstacle`: appends the center and the radius clamped
up to `kSmallNumber`. -/
def AddObstacle (B : BallsInBox K) (point : Fin 3 → K) (r : K) : BallsInBox K :=
  { B with points := B.points ++ [point],
           radii := B.radii ++ [max r kSmallNumber] }

end BallsInBox

/-- Point-mass test dynamics used for concrete instantiations: the last
three state derivatives equal the control input (a double integrator per
spatial axis).  The repository's `NearHoverQuadNoYaw` dynamics involve
`tan` and gravity; the dynamics model is a constructor parameter, and
this simple one keeps concrete evaluations rational. -/
def pointMassDynamics : (Fin 6 → K) → (Fin 3 → K) → (Fin 6 → K) :=
  fun x u j => if h : j.val < 3 then x ⟨3 + j.val, by omega⟩ else u ⟨j.val - 3, by omega⟩

/-- Build a 6-dimensional state from three positions and three velocities. -/
def mkState (x0 x1 x2 v0 v1 v2 : K) : Fin 6 → K := fun j =>
  if j.val = 0 then x0 else if j.val = 1 then x1 else if j.val = 2 then x2
  else if j.val = 3 then v0 else if j.val = 4 then v1 else v2

/-- Build a 3-dimensional vector. -/
def mkVec (a b c : K) : Fin 3 → K := fun j =>
  if j.val = 0 then a else if j.val = 1 then b else c

/-- A concrete value function used in examples: unit reference speed,
tracker controls in `[-1, 1]`, no disturbances, no expansion velocity.
Its net authority is `a_max - d_a = 1` and its tracking bound is `1/2`
in every axis. -/
def vfStd (K : Type) [LinearOrderedField K] : AnalyticalPointMassValueFunction K :=
  AnalyticalPointMassValueFunction.Create pointMassDynamics
    (fun _ => 1) (fun _ => 1) (fun _ => -1) (fun _ => 0) (fun _ => 0) (fun _ => 0)

/-- A concrete value function whose net acceleration authority is
negative (`a_max = 1`, `d_a = 2`), for exercising the constructor's
missing validation. -/
def vfBadAuthority : AnalyticalPointMassValueFunction ℚ :=
  AnalyticalPointMassValueFunction.Create pointMassDynamics
    (fun _ => 1) (fun _ => 1) (fun _ => -1) (fun _ => 0) (fun _ => 2) (fun _ => 0)

/-- A concrete value function with a negative expansion velocity
(`expansion_vel = -2`, `max_planner_speed = 1`, `a_max - d_a = 1`). -/
def vfNegExpand : AnalyticalPointMassValueFunction ℚ :=
  AnalyticalPointMassValueFunction.Create pointMassDynamics
    (fun _ => 1) (fun _ => 1) (fun _ => -1) (fun _ => 0) (fun _ => 0) (fun _ => -2)

/-- A concrete value function with zero planner speed and zero
disturbances. -/
def vfZeroSpeedA : AnalyticalPointMassValueFunction ℚ :=
  AnalyticalPointMassValueFunction.Create pointMassDynamics
    (fun _ => 0) (fun _ => 1) (fun _ => -1) (fun _ => 0) (fun _ => 0) (fun _ => 0)

/-- Same as `vfZeroSpeedA` except for a larger acceleration disturbance
(`d_a = 1/2` instead of `0`), still below `a_max = 1`. -/
def vfZeroSpeedB : AnalyticalPointMassValueFunction ℚ :=
  AnalyticalPointMassValueFunction.Create pointMassDynamics
    (fun _ => 0) (fun _ => 1) (fun _ => -1) (fun _ => 0) (fun _ => 1/2) (fun _ => 0)

/-- `vfStd` with the planner speed raised from `1` to `2`. -/
def vfFaster : AnalyticalPointMassValueFunction ℚ :=
  AnalyticalPointMassValueFunction.Create pointMassDynamics (fun _ => 2) (fun _ => 1)
    (fun _ => -1) (fun _ => 0) (fun _ => 0) (fun _ => 0)

/-- `vfStd` with the velocity disturbance raised from `0` to `1`. -/
def vfDistV : AnalyticalPointMassValueFunction ℚ :=
  AnalyticalPointMassValueFunction.Create pointMassDynamics (fun _ => 1) (fun _ => 1)
    (fun _ => -1) (fun _ => 1) (fun _ => 0) (fun _ => 0)

/-- `vfStd` with the acceleration disturbance raised from `0` to `1/2`. -/
def vfDistA : AnalyticalPointMassValueFunction ℚ :=
  AnalyticalPointMassValueFunction.Create pointMassDynamics (fun _ => 1) (fun _ => 1)
    (fun _ => -1) (fun _ => 0) (fun _ => 1/2) (fun _ => 0)

/-- The per-axis optimal-control decision rule exactly as the claim words
it: for non-negative relative position select the deceleration-producing
extreme unless the acceleration surface is negative (then accelerate);
for negative position select the acceleration-producing extreme unless
the braking surface is negative (then brake).  Written from the claim's
words, to be compared against the source's `OptimalControl`. -/
def specRuleOptimalControl (f : AnalyticalPointMassValueFunction K)
    (state : Fin 6 → K) : Fin 3 → K := fun dim =>
  let u_acc := if f.u2a dim > 0 then f.u_max dim else f.u_min dim
  let u_dec := if f.u2a dim > 0 then f.u_min dim else f.u_max dim
  if state (posIdx dim) ≥ 0 then
    if f.vA state dim < 0 then u_acc else u_dec
  else
    if f.vB state dim < 0 then u_dec else u_acc

/-- The `BallsInBox` states reachable through the public interface:
a freshly created box followed by any sequence of `AddObstacle` calls.
The query methods (`IsValid`, `SenseObstacles`, `IsObstacle`) are `const`
in the source and are modelled as pure functions, so they cannot alter
the obstacle set. -/
inductive ReachableBox : BallsInBox K → Prop
  | create (lower upper : Fin 3 → K) : ReachableBox (BallsInBox.create lower upper)
  | add (B : BallsInBox K) (p : Fin 3 → K) (r : K) :
      ReachableBox B → ReachableBox (B.AddObstacle p r)

/-- A concrete environment: the box `[0,10]^3` with one obstacle of
radius `1` centered at `(5,5,5)` (the example used in the spec). -/
def boxStd : BallsInBox ℚ :=
  (BallsInBox.create (fun _ => 0) (fun _ => 10)).AddObstacle (fun _ => 5) 1

/-- A box `[0,10]^3` holding one obstacle added with degenerate radius
`0` at the origin. -/
def boxZeroRadius : BallsInBox ℚ :=
  (BallsInBox.create (fun _ => 0) (fun _ => 10)).AddObstacle (fun _ => 0) 0

/-- The acceleration surface exactly as the claim's formula writes it,
`V_A = -x + (0.5 (v - v_ref)^2 - v_ref^2 (1 + expand)) / (a_max - d_a)`:
a second definition following the claim's words, for comparison against
the source-derived `vA`. -/
def specSurfaceA (f : AnalyticalPointMassValueFunction K)
    (s : Fin 6 → K) (dim : Fin 3) : K :=
  -(s (posIdx dim)) + ((1/2) * (s (velIdx dim) - f.max_planner_speed dim)^2
    - (f.max_planner_speed dim)^2 * (1 + f.expand dim)) / (f.a_max dim - f.d_a dim)

/-- The braking surface exactly as the claim's formula writes it,
`V_B = x - (-0.5 (v + v_ref)^2 + v_ref^2 (1 + expand)) / (a_max - d_a)`. -/
def specSurfaceB (f : AnalyticalPointMassValueFunction K)
    (s : Fin 6 → K) (dim : Fin 3) : K :=
  s (posIdx dim) - (-(1/2) * (s (velIdx dim) + f.max_planner_speed dim)^2
    + (f.max_planner_speed dim)^2 * (1 + f.expand dim)) / (f.a_max dim - f.d_a dim)

/-- Per-axis value as the claim words it: `max(V_A, V_B)`. -/
def specAxisValue (f : AnalyticalPointMassValueFunction K)
    (s : Fin 6 → K) (dim : Fin 3) : K :=
  max (specSurfaceA f s dim) (specSurfaceB f s dim)

/-- Overall value as the claim words it: the maximum over the three
spatial axes of the per-axis values. -/
def specValue (f : AnalyticalPointMassValueFunction K) (s : Fin 6 → K) : K :=
  max (max (specAxisValue f s 0) (specAxisValue f s 1)) (specAxisValue f s 2)

/-- A state with relative position `2/5` on axis 0 and everything else
zero; with `vfStd` its value is `-1/10`. -/
def sPos : Fin 6 → ℚ := mkState (2/5) 0 0 0 0 0

/-- A state with relative position `19/40` on axis 0 and everything else
zero; with `vfStd` its value is `-1/40`. -/
def sPos2 : Fin 6 → ℚ := mkState (19/40) 0 0 0 0 0

section Lemmas

open AnalyticalPointMassValueFunction BallsInBox

/-- The point-mass test dynamics map the maximum control to itself in the
velocity components. -/
lemma pmd_vel (u : Fin 3 → K) (i : Fin 3) :
    pointMassDynamics zeroState u (velIdx i) = u i := by
  simp only [pointMassDynamics]
  rw [dif_neg (by simp [velIdx])]
  congr 1
  apply Fin.ext
  simp [velIdx]

/-- Closed form of the stored `a_max_` field. -/
lemma Create_a_max (dynamics : (Fin 6 → K) → (Fin 3 → K) → (Fin 6 → K))
    (p u l dv da e : Fin 3 → K) (i : Fin 3) :
    (Create dynamics p u l dv da e).a_max i = |dynamics zeroState u (velIdx i)| := rfl

/-- Closed form of the stored `u2a_` field. -/
lemma Create_u2a (dynamics : (Fin 6 → K) → (Fin 3 → K) → (Fin 6 → K))
    (p u l dv da e : Fin 3 → K) (i : Fin 3) :
    (Create dynamics p u l dv da e).u2a i =
      dynamics zeroState u (velIdx i) / ((1/2) * (u i - l i)) := rfl

/-- Closed form of the stored `expand_` field. -/
lemma Create_expand (dynamics : (Fin 6 → K) → (Fin 3 → K) → (Fin 6 → K))
    (p u l dv da e : Fin 3 → K) (i : Fin 3) :
    (Create dynamics p u l dv da e).expand i =
      e i * (2 * p i + (1/2) * e i) / (|dynamics zeroState u (velIdx i)| - da i) := rfl

/-- The remaining constructor fields are stored verbatim. -/
lemma Create_stored (dynamics : (Fin 6 → K) → (Fin 3 → K) → (Fin 6 → K))
    (p u l dv da e : Fin 3 → K) :
    (Create dynamics p u l dv da e).u_max = u ∧
    (Create dynamics p u l dv da e).u_min = l ∧
    (Create dynamics p u l dv da e).d_v = dv ∧
    (Create dynamics p u l dv da e).d_a = da ∧
    (Create dynamics p u l dv da e).max_planner_speed = p :=
  ⟨rfl, rfl, rfl, rfl, rfl⟩

/-- `TrackingBound` with its local `let` unfolded. -/
lemma TrackingBound_def (f : AnalyticalPointMassValueFunction K) (dim : Fin 3) :
    f.TrackingBound dim =
      (1/2) * (f.max_planner_speed dim + f.d_v dim) *
        (f.max_planner_speed dim + f.d_v dim) * (1 + f.expand dim)
        / (f.a_max dim - f.d_a dim) := rfl

/-- `vA` with its local `let`s unfolded. -/
lemma vA_def (f : AnalyticalPointMassValueFunction K) (s : Fin 6 → K) (dim : Fin 3) :
    f.vA s dim = -(s (posIdx dim)) +
      ((1/2) * (s (velIdx dim) - f.max_planner_speed dim) *
          (s (velIdx dim) - f.max_planner_speed dim)
        - f.max_planner_speed dim * f.max_planner_speed dim * (1 + f.expand dim))
      / (f.a_max dim - f.d_a dim) := rfl

/-- `vB` with its local `let`s unfolded. -/
lemma vB_def (f : AnalyticalPointMassValueFunction K) (s : Fin 6 → K) (dim : Fin 3) :
    f.vB s dim = s (posIdx dim) -
      (-(1/2) * (s (velIdx dim) + f.max_planner_speed dim) *
          (s (velIdx dim) + f.max_planner_speed dim)
        + f.max_planner_speed dim * f.max_planner_speed dim * (1 + f.expand dim))
      / (f.a_max dim - f.d_a dim) := rfl

/-- Field values of the standard example value function. -/
lemma vfStd_a_max (i : Fin 3) : (vfStd K).a_max i = 1 := by
  norm_num [vfStd, Create_a_max, pmd_vel]

/-- Control gain of the standard example value function. -/
lemma vfStd_u2a (i : Fin 3) : (vfStd K).u2a i = 1 := by
  norm_num [vfStd, Create_u2a, pmd_vel]

/-- Expansion term of the standard example value function. -/
lemma vfStd_expand (i : Fin 3) : (vfStd K).expand i = 0 := by
  norm_num [vfStd, Create_expand, pmd_vel]

/-- Tracking bound of the standard example value function. -/
lemma vfStd_trackingBound (i : Fin 3) : (vfStd K).TrackingBound i = 1/2 := by
  rw [TrackingBound_def, vfStd_a_max, vfStd_expand]
  norm_num [vfStd, Create]

/-- `TrackingBound` of a freshly constructed value function, with the
stored fields unfolded to the constructor arguments. -/
lemma Create_trackingBound (dynamics : (Fin 6 → K) → (Fin 3 → K) → (Fin 6 → K))
    (p u l dv da e : Fin 3 → K) (dim : Fin 3) :
    (Create dynamics p u l dv da e).TrackingBound dim =
      ((1/2) * (p dim + dv dim) * (p dim + dv dim) *
        (1 + e dim * (2 * p dim + (1/2) * e dim)
              / (|dynamics zeroState u (velIdx dim)| - da dim))
        / (|dynamics zeroState u (velIdx dim)| - da dim)) := rfl

/-- Prop-level characterization of a successful `IsValid` check. -/
lemma isValid_eq_true_iff (B : BallsInBox K)
    (vf : AnalyticalPointMassValueFunction K) (position : Fin 3 → K) :
    B.IsValid vf vf position = true ↔
      (∀ i : Fin 3, ¬(position i < B.lower i + vf.TrackingBound i) ∧
        ¬(B.upper i - vf.TrackingBound i < position i)) ∧
      (∀ pr ∈ B.points.zip B.radii,
        normLeB (position - pr.1) pr.2 = false ∧
        normLeB (boundCorner vf vf position pr.1 - pr.1) pr.2 = false) := by
  simp [IsValid, SwitchingTrackingBound, List.all_eq_true, List.mem_finRange,
    Bool.not_eq_true', and_assoc, gt_iff_lt, not_or, forall_and]

/-- `Priority` with its local `let`s unfolded (the hardcoded fractions
`0.20` and `0.05` written as `20/100` and `5/100`). -/
lemma Priority_def (f : AnalyticalPointMassValueFunction K) (s : Fin 6 → K) :
    f.Priority s = 1 - min (max 0 ((f.Value s - (5/100) * f.Value zeroState)
      / ((20/100) * f.Value zeroState - (5/100) * f.Value zeroState))) 1 := rfl

/-- Value of the standard example function on a state with a single
nonzero position entry `x` on axis 0. -/
lemma vfStd_value_x (x : ℚ) :
    (vfStd ℚ).Value (mkState x 0 0 0 0 0) = max (max (-x - 1/2) (x - 1/2)) (-(1/2)) := by
  simp only [Value, axisValue, vA_def, vB_def, vfStd_expand, vfStd_a_max]
  norm_num [vfStd, Create, mkState, posIdx, velIdx]
  ring_nf

/-- The zero state written through `mkState`. -/
lemma zeroState_eq : (zeroState : Fin 6 → ℚ) = mkState 0 0 0 0 0 0 := by
  funext j
  simp [zeroState, mkState]

/-- Concrete value at `sPos`. -/
lemma vfStd_value_sPos : (vfStd ℚ).Value sPos = -1/10 := by
  simp only [sPos]
  rw [vfStd_value_x]
  norm_num

/-- Concrete value at `sPos2`. -/
lemma vfStd_value_sPos2 : (vfStd ℚ).Value sPos2 = -1/40 := by
  simp only [sPos2]
  rw [vfStd_value_x]
  norm_num

/-- Concrete value at the hover state. -/
lemma vfStd_value_zero : (vfStd ℚ).Value zeroState = -1/2 := by
  rw [zeroState_eq, vfStd_value_x]
  norm_num

/-- Non-negativity of the tracking-bound formula under non-negative
parameters. -/
lemma tb_nonneg (v d ee D : K)
    (hv : 0 ≤ v) (hd : 0 ≤ d) (he : 0 ≤ ee) (hD : 0 < D) :
    0 ≤ (1/2) * (v + d) * (v + d) * (1 + ee * (2 * v + (1/2) * ee) / D) / D := by
  have hE : 0 ≤ ee * (2 * v + (1/2) * ee) := mul_nonneg he (by linarith)
  have hb : (0:K) ≤ 1 + ee * (2 * v + (1/2) * ee) / D := by
    have := div_nonneg hE hD.le
    linarith
  have hs : (0:K) ≤ v + d := by linarith
  exact div_nonneg (by positivity) hD.le

/-- Strict growth of the tracking-bound formula in its numerator
factors, for a fixed positive denominator. -/
lemma tb_strict_num (s s2 b b2 D : K)
    (hs : 0 ≤ s) (hss : s < s2) (hb : 1 ≤ b) (hbb : b ≤ b2) (hD : 0 < D) :
    (1/2) * s * s * b / D < (1/2) * s2 * s2 * b2 / D := by
  have h1 : s * s < s2 * s2 := mul_self_lt_mul_self hs hss
  have h2 : (1/2) * s * s * b < (1/2) * s2 * s2 * b2 := by nlinarith
  exact (div_lt_div_iff_of_pos_right hD).mpr h2

/-- Strict growth of the tracking-bound formula as its positive
denominator shrinks. -/
lemma tb_strict_denom (s E D D2 : K)
    (hs : 0 < s) (hE : 0 ≤ E) (hD2 : 0 < D2) (hDD : D2 < D) :
    (1/2) * s * s * (1 + E / D) / D < (1/2) * s * s * (1 + E / D2) / D2 := by
  have hD : 0 < D := lt_trans hD2 hDD
  have hx : (0:K) < 1 + E / D := by
    have := div_nonneg hE hD.le
    linarith
  have hxx : 1 + E / D ≤ 1 + E / D2 := by
    have := div_le_div_of_nonneg_left hE hD2 hDD.le
    linarith
  have hC : (0:K) < (1/2) * s * s := by positivity
  rw [mul_div_assoc ((1/2) * s * s), mul_div_assoc ((1/2) * s * s)]
  refine mul_lt_mul_of_pos_left ?_ hC
  calc (1 + E / D) / D < (1 + E / D) / D2 := div_lt_div_of_pos_left hx hD2 hDD
    _ ≤ (1 + E / D2) / D2 := (div_le_div_iff_of_pos_right hD2).mpr hxx

/-- First output vector of the sensing loop: the centers of the kept
entries, in order. -/
lemma senseLoop_fst (position : Fin 3 → K) (sr : K) :
    ∀ L : List ((Fin 3 → K) × K),
      (senseLoop position sr L).1 =
        (L.filter (fun pr => normLeB (position - pr.1) (pr.2 + sr))).map Prod.fst
  | [] => rfl
  | pr :: rest => by
    simp only [senseLoop, List.filter_cons]
    by_cases h : normLeB (position - pr.1) (pr.2 + sr)
    · simp [h, senseLoop_fst position sr rest]
    · simp [h, senseLoop_fst position sr rest]

/-- The two output vectors of the sensing loop zip back to the filtered
obstacle list. -/
lemma senseLoop_zip (position : Fin 3 → K) (sr : K) :
    ∀ L : List ((Fin 3 → K) × K),
      (senseLoop position sr L).1.zip (senseLoop position sr L).2 =
        L.filter (fun pr => normLeB (position - pr.1) (pr.2 + sr))
  | [] => rfl
  | pr :: rest => by
    simp only [senseLoop, List.filter_cons]
    by_cases h : normLeB (position - pr.1) (pr.2 + sr)
    · simp [h, senseLoop_zip position sr rest]
    · simp [h, senseLoop_zip position sr rest]

/-- The standard example box has bounds `0`/`10` and exactly one stored
obstacle, `(5,5,5)` with radius `1`. -/
lemma boxStd_fields : boxStd.lower = (fun _ => (0:ℚ)) ∧ boxStd.upper = (fun _ => (10:ℚ)) ∧
    boxStd.points.zip boxStd.radii = [(fun _ => (5:ℚ), (1:ℚ))] := by
  refine ⟨rfl, rfl, ?_⟩
  show (([] ++ [fun _ => (5:ℚ)]).zip ([] ++ [max 1 kSmallNumber])) = _
  norm_num [kSmallNumber]

open Topology Filter

/-- Position indices and velocity indices never coincide. -/
lemma posIdx_ne_velIdx (d e : Fin 3) : posIdx d ≠ velIdx e := by
  intro h
  have hv := congrArg Fin.val h
  simp only [posIdx, velIdx] at hv
  have := d.isLt
  omega

/-- `posIdx` is injective. -/
lemma posIdx_inj {d e : Fin 3} (h : posIdx d = posIdx e) : d = e := by
  simp only [posIdx, Fin.ext_iff] at h
  exact Fin.ext h

/-- `velIdx` is injective. -/
lemma velIdx_inj {d e : Fin 3} (h : velIdx d = velIdx e) : d = e := by
  simp only [velIdx, Fin.ext_iff] at h
  exact Fin.ext (by omega)

/-- `vA` on axis `d` ignores updates to coordinates outside axis `d`. -/
lemma vA_update_ne (f : AnalyticalPointMassValueFunction K) (s : Fin 6 → K)
    (j : Fin 6) (t : K) (d : Fin 3) (h1 : j ≠ posIdx d) (h2 : j ≠ velIdx d) :
    f.vA (Function.update s j t) d = f.vA s d := by
  rw [vA_def, vA_def, Function.update_noteq (Ne.symm h1), Function.update_noteq (Ne.symm h2)]

/-- `vB` on axis `d` ignores updates to coordinates outside axis `d`. -/
lemma vB_update_ne (f : AnalyticalPointMassValueFunction K) (s : Fin 6 → K)
    (j : Fin 6) (t : K) (d : Fin 3) (h1 : j ≠ posIdx d) (h2 : j ≠ velIdx d) :
    f.vB (Function.update s j t) d = f.vB s d := by
  rw [vB_def, vB_def, Function.update_noteq (Ne.symm h1), Function.update_noteq (Ne.symm h2)]

/-- The axis value ignores updates to coordinates outside its axis. -/
lemma axisValue_update_ne (f : AnalyticalPointMassValueFunction K) (s : Fin 6 → K)
    (j : Fin 6) (t : K) (d : Fin 3) (h1 : j ≠ posIdx d) (h2 : j ≠ velIdx d) :
    f.axisValue (Function.update s j t) d = f.axisValue s d := by
  rw [axisValue, axisValue, vA_update_ne f s j t d h1 h2, vB_update_ne f s j t d h1 h2]

/-- `vA` is affine with slope `-1` in its own position coordinate. -/
lemma vA_update_pos (f : AnalyticalPointMassValueFunction K) (s : Fin 6 → K)
    (d : Fin 3) (t : K) :
    f.vA (Function.update s (posIdx d) t) d = f.vA s d + s (posIdx d) - t := by
  rw [vA_def, vA_def, Function.update_same,
    Function.update_noteq (Ne.symm (posIdx_ne_velIdx d d))]
  ring

/-- `vB` is affine with slope `1` in its own position coordinate. -/
lemma vB_update_pos (f : AnalyticalPointMassValueFunction K) (s : Fin 6 → K)
    (d : Fin 3) (t : K) :
    f.vB (Function.update s (posIdx d) t) d = f.vB s d - s (posIdx d) + t := by
  rw [vB_def, vB_def, Function.update_same,
    Function.update_noteq (Ne.symm (posIdx_ne_velIdx d d))]
  ring

/-- When one axis dominates the other two, the overall value is that
axis value. -/
lemma value_eq_axisValue (f : AnalyticalPointMassValueFunction K) (s : Fin 6 → K)
    (a : Fin 3) (h : ∀ d, d ≠ a → f.axisValue s d ≤ f.axisValue s a) :
    f.Value s = f.axisValue s a := by
  simp only [Value]
  fin_cases a
  · show f.axisValue s 0 ⊔ f.axisValue s 1 ⊔ f.axisValue s 2 = f.axisValue s 0
    have h1 : f.axisValue s 1 ≤ f.axisValue s 0 := h 1 (by decide)
    have h2 : f.axisValue s 2 ≤ f.axisValue s 0 := h 2 (by decide)
    rw [max_eq_left h1, max_eq_left h2]
  · show f.axisValue s 0 ⊔ f.axisValue s 1 ⊔ f.axisValue s 2 = f.axisValue s 1
    have h0 : f.axisValue s 0 ≤ f.axisValue s 1 := h 0 (by decide)
    have h2 : f.axisValue s 2 ≤ f.axisValue s 1 := h 2 (by decide)
    rw [max_eq_right h0, max_eq_left h2]
  · show f.axisValue s 0 ⊔ f.axisValue s 1 ⊔ f.axisValue s 2 = f.axisValue s 2
    have h0 : f.axisValue s 0 ≤ f.axisValue s 2 := h 0 (by decide)
    have h1 : f.axisValue s 1 ≤ f.axisValue s 2 := h 1 (by decide)
    exact max_eq_right (max_le h0 h1)

/-- The two components that `Gradient` writes for axis `d`, as closed
formulas. -/
lemma gradient_formula (f : AnalyticalPointMassValueFunction K) (s : Fin 6 → K)
    (d : Fin 3) :
    f.Gradient s (posIdx d) = (if f.vA s d > f.vB s d then -1 else 1)
  ∧ f.Gradient s (velIdx d) =
      (if f.vA s d > f.vB s d
       then (s (velIdx d) - f.max_planner_speed d) / (f.a_max d - f.d_a d)
       else (s (velIdx d) + f.max_planner_speed d) / (f.a_max d - f.d_a d)) := by
  constructor
  · have h3 : (posIdx d).val < 3 := d.isLt
    rw [Gradient, dif_pos h3]
    have : (⟨(posIdx d).val, h3⟩ : Fin 3) = d := Fin.ext rfl
    rw [this]
  · have h3 : ¬ (velIdx d).val < 3 := by simp [velIdx]
    rw [Gradient, dif_neg h3]
    have : (⟨(velIdx d).val - 3, by omega⟩ : Fin 3) = d := Fin.ext (by simp [velIdx])
    rw [this]

/-- `vA` restricted to its own position coordinate has derivative `-1`. -/
lemma hasDerivAt_vA_pos (f : AnalyticalPointMassValueFunction ℝ) (s : Fin 6 → ℝ)
    (d : Fin 3) (t0 : ℝ) :
    HasDerivAt (fun t => f.vA (Function.update s (posIdx d) t) d) (-1) t0 := by
  have hfun : (fun t => f.vA (Function.update s (posIdx d) t) d) =
      fun t => f.vA s d + s (posIdx d) - t := by
    funext t
    exact vA_update_pos f s d t
  rw [hfun]
  simpa using ((hasDerivAt_id t0).const_sub (f.vA s d + s (posIdx d)))

/-- `vB` restricted to its own position coordinate has derivative `1`. -/
lemma hasDerivAt_vB_pos (f : AnalyticalPointMassValueFunction ℝ) (s : Fin 6 → ℝ)
    (d : Fin 3) (t0 : ℝ) :
    HasDerivAt (fun t => f.vB (Function.update s (posIdx d) t) d) 1 t0 := by
  have hfun : (fun t => f.vB (Function.update s (posIdx d) t) d) =
      fun t => f.vB s d - s (posIdx d) + t := by
    funext t
    exact vB_update_pos f s d t
  rw [hfun]
  simpa using ((hasDerivAt_id t0).const_add (f.vB s d - s (posIdx d)))

/-- `vA` restricted to its own velocity coordinate has derivative
`(v - v_ref) / (a_max - d_a)`. -/
lemma hasDerivAt_vA_vel (f : AnalyticalPointMassValueFunction ℝ) (s : Fin 6 → ℝ)
    (d : Fin 3) (t0 : ℝ) :
    HasDerivAt (fun t => f.vA (Function.update s (velIdx d) t) d)
      ((t0 - f.max_planner_speed d) / (f.a_max d - f.d_a d)) t0 := by
  have hfun : (fun t => f.vA (Function.update s (velIdx d) t) d) =
      fun t => -(s (posIdx d)) +
        ((1/2) * ((t - f.max_planner_speed d) * (t - f.max_planner_speed d))
          - f.max_planner_speed d * f.max_planner_speed d * (1 + f.expand d))
        / (f.a_max d - f.d_a d) := by
    funext t
    rw [vA_def, Function.update_same, Function.update_noteq (posIdx_ne_velIdx d d)]
    ring
  rw [hfun]
  have h1 : HasDerivAt (fun t : ℝ => t - f.max_planner_speed d) 1 t0 :=
    (hasDerivAt_id t0).sub_const _
  have h2 := (h1.mul h1).const_mul (1/2 : ℝ)
  have h3 := ((h2.sub_const
      (f.max_planner_speed d * f.max_planner_speed d * (1 + f.expand d))).div_const
      (f.a_max d - f.d_a d)).const_add (-(s (posIdx d)))
  convert h3 using 1
  ring

/-- `vB` restricted to its own velocity coordinate has derivative
`(v + v_ref) / (a_max - d_a)`. -/
lemma hasDerivAt_vB_vel (f : AnalyticalPointMassValueFunction ℝ) (s : Fin 6 → ℝ)
    (d : Fin 3) (t0 : ℝ) :
    HasDerivAt (fun t => f.vB (Function.update s (velIdx d) t) d)
      ((t0 + f.max_planner_speed d) / (f.a_max d - f.d_a d)) t0 := by
  have hfun : (fun t => f.vB (Function.update s (velIdx d) t) d) =
      fun t => s (posIdx d) -
        (-(1/2) * ((t + f.max_planner_speed d) * (t + f.max_planner_speed d))
          + f.max_planner_speed d * f.max_planner_speed d * (1 + f.expand d))
        / (f.a_max d - f.d_a d) := by
    funext t
    rw [vB_def, Function.update_same, Function.update_noteq (posIdx_ne_velIdx d d)]
    ring
  rw [hfun]
  have h1 : HasDerivAt (fun t : ℝ => t + f.max_planner_speed d) 1 t0 :=
    (hasDerivAt_id t0).add_const _
  have h2 := (h1.mul h1).const_mul (-(1/2) : ℝ)
  have h3 := ((h2.add_const
      (f.max_planner_speed d * f.max_planner_speed d * (1 + f.expand d))).div_const
      (f.a_max d - f.d_a d)).const_sub (s (posIdx d))
  convert h3 using 1
  ring

/-- Near a state whose axis `a` strictly dominates, perturbing a
coordinate of axis `a` keeps the overall value equal to axis `a`'s
value. -/
lemma eventually_value_eq_axis (f : AnalyticalPointMassValueFunction ℝ) (s : Fin 6 → ℝ)
    (a : Fin 3) (j : Fin 6) (hj : j = posIdx a ∨ j = velIdx a)
    (hmax : ∀ d, d ≠ a → f.axisValue s d < f.axisValue s a)
    (hcont : ContinuousAt (fun t => f.axisValue (Function.update s j t) a) (s j)) :
    ∀ᶠ t in 𝓝 (s j),
      f.Value (Function.update s j t) = f.axisValue (Function.update s j t) a := by
  have hconst : ∀ d, d ≠ a → ∀ t,
      f.axisValue (Function.update s j t) d = f.axisValue s d := by
    intro d hd t
    rcases hj with rfl | rfl
    · exact axisValue_update_ne f s _ t d
        (fun h => hd (posIdx_inj h).symm) (posIdx_ne_velIdx a d)
    · exact axisValue_update_ne f s _ t d
        (fun h => (posIdx_ne_velIdx d a) h.symm) (fun h => hd (velIdx_inj h).symm)
  have ht0 : (fun t => f.axisValue (Function.update s j t) a) (s j) =
      f.axisValue s a := by
    show f.axisValue (Function.update s j (s j)) a = _
    rw [Function.update_eq_self]
  have hev : ∀ᶠ t in 𝓝 (s j), ∀ d, d ≠ a →
      f.axisValue s d < f.axisValue (Function.update s j t) a := by
    rw [eventually_all]
    intro d
    by_cases hd : d = a
    · exact Eventually.of_forall (fun t h => absurd hd h)
    · have hlt : f.axisValue s d <
          (fun t => f.axisValue (Function.update s j t) a) (s j) := by
        rw [ht0]; exact hmax d hd
      exact (continuousAt_const.eventually_lt hcont hlt).mono (fun t ht _ => ht)
  refine hev.mono (fun t ht => ?_)
  exact value_eq_axisValue f (Function.update s j t) a
    (fun d hd => by rw [hconst d hd t]; exact (ht d hd).le)

/-- Perturbing a coordinate of a strictly non-maximal axis leaves the
overall value locally constant, so its derivative along that coordinate
is `0` — not the `±1` (or velocity formula) that `Gradient` writes
there. -/
lemma value_locally_const_off_max_axis (f : AnalyticalPointMassValueFunction ℝ)
    (s : Fin 6 → ℝ) (a : Fin 3) (j : Fin 6)
    (hj : ¬(j = posIdx a ∨ j = velIdx a))
    (hmax : ∀ d, d ≠ a → f.axisValue s d < f.axisValue s a) :
    HasDerivAt (fun t => f.Value (Function.update s j t)) 0 (s j) := by
  have hupd : Function.update s j (s j) = s := Function.update_eq_self j s
  obtain ⟨d0, hd0⟩ : ∃ d0 : Fin 3, j = posIdx d0 ∨ j = velIdx d0 := by
    by_cases h3 : j.val < 3
    · exact ⟨⟨j.val, h3⟩, Or.inl (Fin.ext rfl)⟩
    · exact ⟨⟨j.val - 3, by omega⟩, Or.inr (Fin.ext (by simp [velIdx]; omega))⟩
  have hd0a : d0 ≠ a := by
    rintro rfl
    exact hj hd0
  have hconst : ∀ d, d ≠ d0 → ∀ t,
      f.axisValue (Function.update s j t) d = f.axisValue s d := by
    intro d hd t
    rcases hd0 with rfl | rfl
    · exact axisValue_update_ne f s _ t d
        (fun h => hd (posIdx_inj h).symm) (posIdx_ne_velIdx d0 d)
    · exact axisValue_update_ne f s _ t d
        (fun h => (posIdx_ne_velIdx d d0) h.symm) (fun h => hd (velIdx_inj h).symm)
  have hconta : ContinuousAt
      (fun t => f.axisValue (Function.update s j t) d0) (s j) := by
    rcases hd0 with rfl | rfl
    · exact (hasDerivAt_vA_pos f s d0 _).continuousAt.max
        (hasDerivAt_vB_pos f s d0 _).continuousAt
    · exact (hasDerivAt_vA_vel f s d0 _).continuousAt.max
        (hasDerivAt_vB_vel f s d0 _).continuousAt
  have hlt : (fun t => f.axisValue (Function.update s j t) d0) (s j) <
      f.axisValue s a := by
    show f.axisValue (Function.update s j (s j)) d0 < _
    rw [hupd]
    exact hmax d0 hd0a
  have hev : ∀ᶠ t in 𝓝 (s j),
      f.axisValue (Function.update s j t) d0 < f.axisValue s a :=
    hconta.eventually_lt continuousAt_const hlt
  have hEv : ∀ᶠ t in 𝓝 (s j),
      f.Value (Function.update s j t) = f.axisValue s a := by
    refine hev.mono (fun t ht => ?_)
    have haeq : f.axisValue (Function.update s j t) a = f.axisValue s a :=
      hconst a (Ne.symm hd0a) t
    rw [value_eq_axisValue f (Function.update s j t) a ?_, haeq]
    intro d hd
    by_cases hdd0 : d = d0
    · subst hdd0
      rw [haeq]
      exact ht.le
    · rw [hconst d hdd0 t, haeq]
      exact (hmax d hd).le
  exact (hasDerivAt_const (s j) (f.axisValue s a)).congr_of_eventuallyEq hEv

/-- Surface values of `vfStd` at the state with positions
`(2/5, 1/10, 1/10)` and zero velocities. -/
lemma sGrad_surfaces :
    (vfStd ℝ).vA (mkState (2/5) (1/10) (1/10) 0 0 0) 0 = -(9/10)
  ∧ (vfStd ℝ).vB (mkState (2/5) (1/10) (1/10) 0 0 0) 0 = -(1/10)
  ∧ (vfStd ℝ).vA (mkState (2/5) (1/10) (1/10) 0 0 0) 1 = -(3/5)
  ∧ (vfStd ℝ).vB (mkState (2/5) (1/10) (1/10) 0 0 0) 1 = -(2/5)
  ∧ (vfStd ℝ).vA (mkState (2/5) (1/10) (1/10) 0 0 0) 2 = -(3/5)
  ∧ (vfStd ℝ).vB (mkState (2/5) (1/10) (1/10) 0 0 0) 2 = -(2/5) := by
  refine ⟨?_, ?_, ?_, ?_, ?_, ?_⟩ <;>
    first
    | (rw [vA_def, vfStd_expand, vfStd_a_max]
       norm_num [vfStd, Create, mkState, posIdx, velIdx])
    | (rw [vB_def, vfStd_expand, vfStd_a_max]
       norm_num [vfStd, Create, mkState, posIdx, velIdx])

end Lemmas

section Claims

open AnalyticalPointMassValueFunction BallsInBox

open Topology Filter

/-- C1.  With the same value function used as incoming and outgoing,
`IsValid` returns false whenever some coordinate lies strictly within the
value function's tracking bound of that dimension's box face, false
whenever the position or the nearest corner of the axis-aligned
tracking-bound box around it lies within an obstacle's radius of its
center (distances embedded in squared form by `normLeB`), and true
whenever the position clears every face strictly by more than the bound
and both the position and the corner strictly clear every obstacle.  The
source's corner check additionally assumes the tracking bound does not
exceed twice the obstacle diameter; that precondition concerns the
conservatism of the rectangular approximation, not the computed return
value, so the theorem does not need it. -/
theorem isValid_faces_and_obstacles (B : BallsInBox K)
    (vf : AnalyticalPointMassValueFunction K) (position : Fin 3 → K) :
    ((∃ i : Fin 3, position i < B.lower i + vf.TrackingBound i ∨
        B.upper i - vf.TrackingBound i < position i) →
      B.IsValid vf vf position = false)
  ∧ ((∃ pr ∈ B.points.zip B.radii,
        normLeB (position - pr.1) pr.2 = true ∨
        normLeB (boundCorner vf vf position pr.1 - pr.1) pr.2 = true) →
      B.IsValid vf vf position = false)
  ∧ ((∀ i : Fin 3, B.lower i + vf.TrackingBound i < position i ∧
        position i < B.upper i - vf.TrackingBound i) →
     (∀ pr ∈ B.points.zip B.radii,
        normLeB (position - pr.1) pr.2 = false ∧
        normLeB (boundCorner vf vf position pr.1 - pr.1) pr.2 = false) →
      B.IsValid vf vf position = true) := by
  refine ⟨fun ⟨i, hi⟩ => ?_, fun ⟨pr, hpr, hhit⟩ => ?_, fun hfaces hobs => ?_⟩
  · rw [Bool.eq_false_iff]
    intro hT
    rcases ((isValid_eq_true_iff B vf position).mp hT).1 i with ⟨h1, h2⟩
    rcases hi with h | h
    exacts [h1 h, h2 h]
  · rw [Bool.eq_false_iff]
    intro hT
    rcases ((isValid_eq_true_iff B vf position).mp hT).2 pr hpr with ⟨h1, h2⟩
    rcases hhit with h | h
    · rw [h1] at h; exact Bool.false_ne_true h
    · rw [h2] at h; exact Bool.false_ne_true h
  · exact (isValid_eq_true_iff B vf position).mpr
      ⟨fun i => ⟨not_lt.mpr (le_of_lt (hfaces i).1), not_lt.mpr (le_of_lt (hfaces i).2)⟩, hobs⟩

/-- Witness for C1 on the spec's example: box `[0,10]^3`, obstacle at
`(5,5,5)` with radius `1`, tracking bound `1/2`; `(1/4,5,5)` is too close
to a face, `(5,5,5)` hits the obstacle, `(1,1,1)` is valid. -/
theorem isValid_faces_and_obstacles_witness :
    boxStd.IsValid (vfStd ℚ) (vfStd ℚ) (mkVec (1/4) 5 5) = false
  ∧ boxStd.IsValid (vfStd ℚ) (vfStd ℚ) (mkVec 5 5 5) = false
  ∧ boxStd.IsValid (vfStd ℚ) (vfStd ℚ) (mkVec 1 1 1) = true := by
  obtain ⟨hl, hu, hz⟩ := boxStd_fields
  refine ⟨(isValid_faces_and_obstacles boxStd (vfStd ℚ) _).1 ⟨0, Or.inl ?_⟩,
          (isValid_faces_and_obstacles boxStd (vfStd ℚ) _).2.1
            ⟨(fun _ => 5, 1), by rw [hz]; norm_num, Or.inl ?_⟩,
          (isValid_faces_and_obstacles boxStd (vfStd ℚ) _).2.2 (fun i => ?_) (fun pr hpr => ?_)⟩
  · rw [hl, vfStd_trackingBound]
    norm_num [mkVec]
  · norm_num [normLeB, sqNorm, mkVec]
  · rw [hl, hu, vfStd_trackingBound]
    norm_num [mkVec]
  · rw [hz] at hpr
    rcases List.mem_singleton.mp hpr with rfl
    constructor
    · norm_num [normLeB, sqNorm, mkVec]
    · have hc : boundCorner (vfStd ℚ) (vfStd ℚ) (mkVec 1 1 1) (fun _ => 5) = fun _ => 3/2 := by
        funext j
        simp only [boundCorner, SwitchingTrackingBound, vfStd_trackingBound]
        norm_num [mkVec]
      rw [hc]
      norm_num [normLeB, sqNorm]

/-- C2 (amended).  `OptimalControl` always applies the outside rule — the
disabled inside rule (`insideRuleEnabled = false`) never influences the
result — and per axis the rule is: for non-negative relative position,
select the acceleration-producing extreme unless the acceleration
surface `V_A` is negative (then the deceleration-producing extreme); for
negative position, select the deceleration-producing extreme unless the
braking surface `V_B` is negative (then the acceleration-producing
extreme).  The result is always one of the two extreme controls `u_min`
or `u_max` fixed at construction.  (The claim stated the conditionals the
other way round; see the counterexample.) -/
theorem optimalControl_outside_rule (f : AnalyticalPointMassValueFunction K)
    (state : Fin 6 → K) (dim : Fin 3) :
    (f.OptimalControl state dim =
      if state (posIdx dim) ≥ 0 then
        (if f.vA state dim < 0
         then (if f.u2a dim > 0 then f.u_min dim else f.u_max dim)
         else (if f.u2a dim > 0 then f.u_max dim else f.u_min dim))
      else
        (if f.vB state dim < 0
         then (if f.u2a dim > 0 then f.u_max dim else f.u_min dim)
         else (if f.u2a dim > 0 then f.u_min dim else f.u_max dim)))
  ∧ (f.OptimalControl state dim = f.u_min dim ∨
     f.OptimalControl state dim = f.u_max dim) := by
  constructor
  · simp [OptimalControl, insideRuleEnabled]
  · simp only [OptimalControl, insideRuleEnabled, Bool.false_eq_true, if_false]
    split_ifs <;> simp

/-- Counterexample to C2 as stated: at relative position `2/5 ≥ 0` with
`V_A = -9/10 < 0`, the source selects the deceleration-producing extreme
(`u_min = -1`), while the claim's rule (`specRuleOptimalControl`, written
from the claim's words) selects the acceleration-producing extreme
(`u_max = 1`): the claim has the two branches swapped. -/
theorem optimalControl_claim_rule_refuted :
    (vfStd ℚ).OptimalControl sPos 0 = -1
  ∧ specRuleOptimalControl (vfStd ℚ) sPos 0 = 1
  ∧ (vfStd ℚ).u_min 0 = -1 ∧ (vfStd ℚ).u_max 0 = 1 := by
  have hva : (vfStd ℚ).vA sPos 0 = -9/10 := by
    rw [vA_def, vfStd_expand, vfStd_a_max]
    norm_num [vfStd, Create, sPos, mkState, posIdx, velIdx]
  have hx : sPos (posIdx 0) = 2/5 := by norm_num [sPos, mkState, posIdx]
  refine ⟨?_, ?_, rfl, rfl⟩
  · simp only [OptimalControl, insideRuleEnabled, Bool.false_eq_true, if_false, hva, hx,
      vfStd_u2a]
    norm_num
    rfl
  · simp only [specRuleOptimalControl, hva, hx, vfStd_u2a]
    norm_num
    rfl

/-- C3 (amended).  The constructor performs no validation of the net
acceleration authority: it is total, and when `a_max - d_a` is negative
on an axis (with zero expansion velocity and a nonzero planner speed
plus velocity disturbance there) it silently returns a value function
whose `TrackingBound` on that axis is negative, instead of failing. -/
theorem create_accepts_nonpositive_authority
    (dynamics : (Fin 6 → K) → (Fin 3 → K) → (Fin 6 → K))
    (p u l dv da e : Fin 3 → K) (dim : Fin 3)
    (he : e dim = 0)
    (hlt : |dynamics zeroState u (velIdx dim)| < da dim)
    (hv : p dim + dv dim ≠ 0) :
    (Create dynamics p u l dv da e).TrackingBound dim < 0 := by
  rw [Create_trackingBound, he]
  have hD : |dynamics zeroState u (velIdx dim)| - da dim < 0 := by linarith
  have hnum : 0 < (1/2 : K) * (p dim + dv dim) * (p dim + dv dim) := by
    have := mul_self_pos.mpr hv
    nlinarith
  rw [show (0:K) * (2 * p dim + (1/2) * 0) = 0 by ring, zero_div, add_zero, mul_one]
  exact div_neg_of_pos_of_neg hnum hD

/-- Witness for C3: the concrete parameters of `vfBadAuthority`
(`a_max = 1 < d_a = 2`) satisfy the hypotheses, and the constructed
tracking bound is negative. -/
theorem create_accepts_nonpositive_authority_witness :
    ((fun _ => (0:ℚ)) 0 = 0 ∧
     |pointMassDynamics zeroState (fun _ => (1:ℚ)) (velIdx 0)| < (fun _ => (2:ℚ)) 0 ∧
     ((fun _ => (1:ℚ)) 0 + (fun _ => (0:ℚ)) 0 ≠ 0))
  ∧ vfBadAuthority.TrackingBound 0 < 0 :=
  ⟨⟨rfl, by norm_num [pmd_vel], by norm_num⟩,
   create_accepts_nonpositive_authority pointMassDynamics (fun _ => 1) (fun _ => 1)
     (fun _ => -1) (fun _ => 0) (fun _ => 2) (fun _ => 0) 0 rfl
     (by norm_num [pmd_vel]) (by norm_num)⟩

/-- Counterexample to C3 as stated: with `a_max - d_a = -1 < 0` the
construction does not fail — it produces a fully usable value function
(its value at the hover state evaluates to `1/2`) whose safety bound is
the meaningless `-1/2`. -/
theorem create_bad_authority_usable :
    vfBadAuthority.a_max 0 - vfBadAuthority.d_a 0 = -1
  ∧ vfBadAuthority.TrackingBound 0 = -(1/2)
  ∧ vfBadAuthority.Value zeroState = 1/2 := by
  have hm : vfBadAuthority.a_max 0 = 1 := by
    norm_num [vfBadAuthority, Create_a_max, pmd_vel]
  have hex : ∀ i, vfBadAuthority.expand i = 0 := fun i => by
    norm_num [vfBadAuthority, Create_expand, pmd_vel]
  refine ⟨by rw [hm]; norm_num [vfBadAuthority, Create], ?_, ?_⟩
  · simp only [vfBadAuthority]
    rw [Create_trackingBound]
    norm_num [pmd_vel]
  · have hva : ∀ i, vfBadAuthority.vA zeroState i = 1/2 := fun i => by
      rw [vA_def, hex]
      norm_num [vfBadAuthority, Create_a_max, Create, pmd_vel, zeroState]
    have hvb : ∀ i, vfBadAuthority.vB zeroState i = 1/2 := fun i => by
      rw [vB_def, hex]
      norm_num [vfBadAuthority, Create_a_max, Create, pmd_vel, zeroState]
    simp [Value, axisValue, hva, hvb]

/-- C4.  `Value` equals the claim's closed form: the maximum over the
three spatial axes of `max(V_A, V_B)` with the claim's surface formulas
(`specValue`, written from the claim's words), and every axis value is
dominated by the overall value (the least-safe axis dominates).  The
claim's final clause — negative strictly inside the safe set and
non-negative outside — is definitional: the safe/tracking set is exactly
the negative sublevel set of `Value`. -/
theorem value_matches_spec_formula (f : AnalyticalPointMassValueFunction K)
    (s : Fin 6 → K) :
    f.Value s = specValue f s ∧ ∀ dim : Fin 3, specAxisValue f s dim ≤ f.Value s := by
  have hA : ∀ dim, f.vA s dim = specSurfaceA f s dim := fun dim => by
    simp only [vA_def, specSurfaceA]; ring
  have hB : ∀ dim, f.vB s dim = specSurfaceB f s dim := fun dim => by
    simp only [vB_def, specSurfaceB]; ring
  have h1 : f.Value s = specValue f s := by
    simp [Value, axisValue, specValue, specAxisValue, hA, hB]
  refine ⟨h1, fun dim => ?_⟩
  rw [h1]
  fin_cases dim
  · exact le_max_of_le_left (le_max_left _ _)
  · exact le_max_of_le_left (le_max_right _ _)
  · exact le_max_right _ _

/-- C6.  The code's own `BUG!` comment is right: because `Priority`
normalizes against the value at the hover state — which is negative —
the normalization denominator `V_high - V_low` is negative, and
`Priority` increases as `Value` increases instead of decreasing.  At the
failing input pair, `Value sPos = -1/10 < Value sPos2 = -1/40`, yet
`Priority sPos = 0 < Priority sPos2 = 1`, contradicting the claimed
monotonicity (the `[0,1]` bound itself does hold, by the clamp). -/
theorem priority_increasing_at_failing_input :
    (vfStd ℚ).Value sPos < (vfStd ℚ).Value sPos2
  ∧ (vfStd ℚ).Priority sPos = 0 ∧ (vfStd ℚ).Priority sPos2 = 1 := by
  refine ⟨?_, ?_, ?_⟩
  · rw [vfStd_value_sPos, vfStd_value_sPos2]; norm_num
  · rw [Priority_def, vfStd_value_sPos, vfStd_value_zero]; norm_num
  · rw [Priority_def, vfStd_value_sPos2, vfStd_value_zero]; norm_num

/-- C8.  `SenseObstacles` returns exactly the obstacles whose distance
from the query position is at most `radius + sensor_radius` (spheres
intersecting the sensor sphere), with their stored centers and radii in
stored order: the zipped output equals the filtered obstacle list,
membership in the output is equivalent to in-range membership in the
store, and the returned flag is true iff at least one obstacle is in
range. -/
theorem senseObstacles_returns_exactly_in_range (B : BallsInBox K)
    (position : Fin 3 → K) (sensor_radius : K) :
    ((B.SenseObstacles position sensor_radius).1.zip
        (B.SenseObstacles position sensor_radius).2.1
      = (B.points.zip B.radii).filter
          (fun pr => normLeB (position - pr.1) (pr.2 + sensor_radius)))
  ∧ (∀ pr : (Fin 3 → K) × K,
      pr ∈ (B.SenseObstacles position sensor_radius).1.zip
            (B.SenseObstacles position sensor_radius).2.1
      ↔ pr ∈ B.points.zip B.radii ∧
          normLeB (position - pr.1) (pr.2 + sensor_radius) = true)
  ∧ ((B.SenseObstacles position sensor_radius).2.2 = true ↔
      ∃ pr ∈ B.points.zip B.radii,
        normLeB (position - pr.1) (pr.2 + sensor_radius) = true) := by
  have h1 := senseLoop_zip position sensor_radius (B.points.zip B.radii)
  refine ⟨h1, fun pr => ?_, ?_⟩
  · rw [show (B.SenseObstacles position sensor_radius).1.zip
        (B.SenseObstacles position sensor_radius).2.1 =
        (senseLoop position sensor_radius (B.points.zip B.radii)).1.zip
        (senseLoop position sensor_radius (B.points.zip B.radii)).2 from rfl, h1,
      List.mem_filter]
  · rw [show (B.SenseObstacles position sensor_radius).2.2 =
        decide (0 < (senseLoop position sensor_radius (B.points.zip B.radii)).1.length)
        from rfl]
    rw [senseLoop_fst]
    simp only [decide_eq_true_iff, List.length_map, List.length_pos, ne_eq,
      List.filter_eq_nil_iff, not_forall]
    constructor
    · rintro ⟨pr, hmem, hp⟩
      exact ⟨pr, hmem, by simpa using hp⟩
    · rintro ⟨pr, hmem, hp⟩
      exact ⟨pr, hmem, by simpa using hp⟩

/-- C9 (amended).  For a well-formed box and any strictly positive
radius `r`, `AddObstacle(p, r)` followed by `IsObstacle(p, r)` returns
true; querying a center beyond the `1e-8` tolerance of every stored
obstacle returns false; and the stored radius is clamped up to
`kSmallNumber`, never rejected.  (The claim's `r ≥ 0` fails exactly at
`r = 0`, where the clamped stored radius `1e-8` differs from the query
radius by `1e-8`, which is not strictly within the tolerance — see the
counterexample.) -/
theorem addObstacle_then_isObstacle (B : BallsInBox K) (p : Fin 3 → K) (r : K)
    (hr : 0 < r) (hlen : B.points.length = B.radii.length) :
    (B.AddObstacle p r).IsObstacle p r = true
  ∧ (∀ q r2, (∀ c ∈ (B.AddObstacle p r).points, normLtB (q - c) kSmallNumber = false) →
      (B.AddObstacle p r).IsObstacle q r2 = false)
  ∧ (B.AddObstacle p r).radii = B.radii ++ [max r kSmallNumber] := by
  have hzip : (B.AddObstacle p r).points.zip (B.AddObstacle p r).radii =
      B.points.zip B.radii ++ [(p, max r kSmallNumber)] := by
    show ((B.points ++ [p]).zip (B.radii ++ [max r kSmallNumber])) = _
    rw [List.zip_append (by simpa using hlen)]
    rfl
  refine ⟨?_, fun q r2 hq => ?_, rfl⟩
  · simp only [IsObstacle, hzip, List.any_append, List.any_cons, List.any_nil,
      Bool.or_eq_true, Bool.and_eq_true]
    refine Or.inr (Or.inl ⟨?_, ?_⟩)
    · simp only [normLtB, sqNorm, Bool.and_eq_true, decide_eq_true_iff]
      constructor
      · norm_num [kSmallNumber]
      · simp only [Pi.sub_apply, sub_self]
        norm_num [kSmallNumber]
    · rcases le_or_lt kSmallNumber r with h | h
      · rw [max_eq_left h]
        simp only [sub_self, abs_zero, decide_eq_true_iff]
        norm_num [kSmallNumber]
      · rw [max_eq_right (le_of_lt h)]
        rw [decide_eq_true_iff, abs_sub_lt_iff]
        constructor <;> linarith
  · simp only [IsObstacle, List.any_eq_false]
    intro pr hpr
    have hc : pr.1 ∈ (B.AddObstacle p r).points := (List.of_mem_zip hpr).1
    simp [hq pr.1 hc]

/-- Witness for C9 on the standard example box: adding the obstacle
`(5,5,5)` with radius `1` to the empty `[0,10]^3` box makes
`IsObstacle((5,5,5), 1)` true. -/
theorem addObstacle_then_isObstacle_witness :
    (0 < (1:ℚ)) ∧ boxStd.IsObstacle (fun _ => 5) 1 = true :=
  ⟨by norm_num,
   (addObstacle_then_isObstacle (BallsInBox.create (fun _ => 0) (fun _ => 10))
     (fun _ => 5) 1 (by norm_num) rfl).1⟩

/-- Counterexample to C9 as stated at `r = 0`: the degenerate radius is
clamped to `kSmallNumber = 1e-8` on insertion, so the immediate
membership query `IsObstacle(p, 0)` compares `|0 - 1e-8| < 1e-8`, which
is false — add-then-query fails at radius zero. -/
theorem addObstacle_zero_radius_not_found :
    boxZeroRadius.IsObstacle (fun _ => 0) 0 = false
  ∧ boxZeroRadius.radii = [kSmallNumber] := by
  constructor
  · have hzip : boxZeroRadius.points.zip boxZeroRadius.radii =
        [(fun _ => (0:ℚ), kSmallNumber)] := by
      show (([] ++ [fun _ => (0:ℚ)]).zip ([] ++ [max 0 kSmallNumber])) = _
      norm_num [kSmallNumber]
    simp only [IsObstacle, hzip, List.any_cons, List.any_nil, Bool.or_false]
    have hd : decide (|(0:ℚ) - kSmallNumber| < kSmallNumber) = false := by
      rw [decide_eq_false_iff_not, zero_sub, abs_neg,
        abs_of_pos (show (0:ℚ) < kSmallNumber by norm_num [kSmallNumber])]
      exact lt_irrefl _
    rw [hd, Bool.and_false]
  · show [] ++ [max 0 kSmallNumber] = _
    norm_num [kSmallNumber]

/-- C10.  In every reachable `BallsInBox` state the center list and the
radius list have equal length and every stored radius is at least
`kSmallNumber = 1e-8`; the invariant holds for the freshly created box
and is preserved by `AddObstacle`, which appends exactly one entry to
each list (with the radius clamped).  The query operations `IsValid`,
`SenseObstacles` and `IsObstacle` are `const` member functions, modelled
as pure functions of the box, so they cannot change the obstacle set —
`ReachableBox` therefore closes the state space over creation and
insertion alone. -/
theorem ballsInBox_invariant (B : BallsInBox K) (h : ReachableBox B) :
    (B.points.length = B.radii.length ∧ ∀ r ∈ B.radii, kSmallNumber ≤ r)
  ∧ (∀ p r, (B.AddObstacle p r).points = B.points ++ [p] ∧
      (B.AddObstacle p r).radii = B.radii ++ [max r kSmallNumber]) := by
  refine ⟨?_, fun p r => ⟨rfl, rfl⟩⟩
  induction h with
  | create lower upper => exact ⟨rfl, by simp [BallsInBox.create]⟩
  | add B p r hB ih =>
    refine ⟨by simp [AddObstacle, ih.1], fun s hs => ?_⟩
    rcases List.mem_append.mp hs with h1 | h1
    · exact ih.2 s h1
    · rw [List.mem_singleton.mp h1]
      exact le_max_right _ _

/-- Witness for C10 on the reachable box `boxStd`: the lists have equal
length and the stored radius `1` respects the minimum. -/
theorem ballsInBox_invariant_witness :
    boxStd.points.length = boxStd.radii.length ∧ kSmallNumber ≤ (1:ℚ) := by
  have h := ballsInBox_invariant boxStd
    (ReachableBox.add _ _ _ (ReachableBox.create (fun _ => 0) (fun _ => 10)))
  refine ⟨h.1.1, ?_⟩
  have hm : (1:ℚ) ∈ boxStd.radii := by
    show (1:ℚ) ∈ [] ++ [max 1 kSmallNumber]
    norm_num [kSmallNumber]
  exact h.1.2 1 hm

/-- C5 (amended).  Under the natural sign conditions on the parameters —
non-negative planner speed, velocity disturbance and expansion velocity,
and `d_a < a_max` — the constructed `TrackingBound(dim)` is non-negative
and strictly increasing in the planner speed and in the velocity
disturbance; it is strictly increasing in the acceleration disturbance
provided additionally `max_planner_speed + d_v > 0` on that axis.  (As
stated the claim fails for a negative expansion velocity, where the
bound itself goes negative, and at `v_ref = d_v = 0`, where the bound is
identically zero in `d_a` — see the counterexample.) -/
theorem trackingBound_nonneg_monotone
    (dynamics : (Fin 6 → K) → (Fin 3 → K) → (Fin 6 → K))
    (p u l dv da e : Fin 3 → K) (dim : Fin 3)
    (hp : 0 ≤ p dim) (hdv : 0 ≤ dv dim) (he : 0 ≤ e dim)
    (hD : da dim < |dynamics zeroState u (velIdx dim)|) :
    0 ≤ (Create dynamics p u l dv da e).TrackingBound dim
  ∧ (∀ q : Fin 3 → K, p dim < q dim →
      (Create dynamics p u l dv da e).TrackingBound dim
        < (Create dynamics q u l dv da e).TrackingBound dim)
  ∧ (∀ dv2 : Fin 3 → K, dv dim < dv2 dim →
      (Create dynamics p u l dv da e).TrackingBound dim
        < (Create dynamics p u l dv2 da e).TrackingBound dim)
  ∧ (∀ da2 : Fin 3 → K, da dim < da2 dim →
      da2 dim < |dynamics zeroState u (velIdx dim)| → 0 < p dim + dv dim →
      (Create dynamics p u l dv da e).TrackingBound dim
        < (Create dynamics p u l dv da2 e).TrackingBound dim) := by
  set A := |dynamics zeroState u (velIdx dim)| with hA
  have hDpos : 0 < A - da dim := by linarith
  refine ⟨?_, fun q hq => ?_, fun dv2 hdv2 => ?_, fun da2 hda2 hda2A hsum => ?_⟩
  · rw [Create_trackingBound]
    exact tb_nonneg _ _ _ _ hp hdv he hDpos
  · rw [Create_trackingBound, Create_trackingBound]
    have hE : 0 ≤ e dim * (2 * p dim + (1/2) * e dim) :=
      mul_nonneg he (by linarith)
    have hE2 : e dim * (2 * p dim + (1/2) * e dim) ≤
        e dim * (2 * q dim + (1/2) * e dim) :=
      mul_le_mul_of_nonneg_left (by linarith) he
    have hb : (1:K) ≤ 1 + e dim * (2 * p dim + (1/2) * e dim) / (A - da dim) := by
      have := div_nonneg hE hDpos.le
      linarith
    have hbb : 1 + e dim * (2 * p dim + (1/2) * e dim) / (A - da dim) ≤
        1 + e dim * (2 * q dim + (1/2) * e dim) / (A - da dim) := by
      have := (div_le_div_iff_of_pos_right hDpos).mpr hE2
      linarith
    exact tb_strict_num _ _ _ _ _ (by linarith) (by linarith) hb hbb hDpos
  · rw [Create_trackingBound, Create_trackingBound]
    have hE : 0 ≤ e dim * (2 * p dim + (1/2) * e dim) :=
      mul_nonneg he (by linarith)
    have hb : (1:K) ≤ 1 + e dim * (2 * p dim + (1/2) * e dim) / (A - da dim) := by
      have := div_nonneg hE hDpos.le
      linarith
    exact tb_strict_num _ _ _ _ _ (by linarith) (by linarith) hb le_rfl hDpos
  · rw [Create_trackingBound, Create_trackingBound]
    have hE : 0 ≤ e dim * (2 * p dim + (1/2) * e dim) :=
      mul_nonneg he (by linarith)
    have hD2 : 0 < A - da2 dim := by linarith
    exact tb_strict_denom _ _ _ _ hsum hE hD2 (by linarith)

/-- Witness for C5: starting from `vfStd`, raising the planner speed,
the velocity disturbance or the acceleration disturbance strictly
raises the tracking bound, which is non-negative. -/
theorem trackingBound_nonneg_monotone_witness :
    ((0:ℚ) ≤ 1 ∧ (0:ℚ) ≤ 0 ∧ (0:ℚ) ≤ 0 ∧
      (0:ℚ) < |pointMassDynamics zeroState (fun _ => (1:ℚ)) (velIdx 0)|)
  ∧ 0 ≤ (vfStd ℚ).TrackingBound 0
  ∧ (vfStd ℚ).TrackingBound 0 < vfFaster.TrackingBound 0
  ∧ (vfStd ℚ).TrackingBound 0 < vfDistV.TrackingBound 0
  ∧ (vfStd ℚ).TrackingBound 0 < vfDistA.TrackingBound 0 := by
  have h := trackingBound_nonneg_monotone pointMassDynamics (fun _ => (1:ℚ))
    (fun _ => 1) (fun _ => -1) (fun _ => 0) (fun _ => 0) (fun _ => 0) 0
    (by norm_num) (by norm_num) (by norm_num) (by norm_num [pmd_vel])
  exact ⟨⟨by norm_num, by norm_num, by norm_num, by norm_num [pmd_vel]⟩,
    h.1, h.2.1 (fun _ => 2) (by norm_num), h.2.2.1 (fun _ => 1) (by norm_num),
    h.2.2.2 (fun _ => 1/2) (by norm_num) (by norm_num [pmd_vel]) (by norm_num)⟩

/-- Counterexample to C5 as stated: with a negative expansion velocity
(`-2`) and `a_max - d_a = 1 > 0` the tracking bound is `-1/2 < 0`; and
with zero planner speed and zero disturbances the bound is identically
`0` for both `d_a = 0` and `d_a = 1/2` (< `a_max = 1`), so it is not
strictly increasing in the acceleration disturbance. -/
theorem trackingBound_claim_counterexample :
    (vfNegExpand.a_max 0 - vfNegExpand.d_a 0 = 1 ∧
      vfNegExpand.TrackingBound 0 = -(1/2))
  ∧ (vfZeroSpeedA.d_a 0 = 0 ∧ vfZeroSpeedB.d_a 0 = 1/2 ∧ vfZeroSpeedB.a_max 0 = 1
     ∧ vfZeroSpeedA.TrackingBound 0 = 0 ∧ vfZeroSpeedB.TrackingBound 0 = 0) := by
  refine ⟨⟨?_, ?_⟩, rfl, rfl, ?_, ?_, ?_⟩
  · norm_num [vfNegExpand, Create_a_max, Create, pmd_vel]
  · simp only [vfNegExpand]
    rw [Create_trackingBound]
    norm_num [pmd_vel]
  · norm_num [vfZeroSpeedB, Create_a_max, pmd_vel]
  · simp only [vfZeroSpeedA]
    rw [Create_trackingBound]
    norm_num
  · simp only [vfZeroSpeedB]
    rw [Create_trackingBound]
    norm_num

/-- C7 (amended).  `Gradient` writes, for every axis, the partial
derivatives of whichever surface wins the `V_A > V_B` comparison (`-1`
or `+1` in the position slot and the corresponding velocity formula in
the velocity slot).  At a state where one surface is strictly active in
each axis and a single axis strictly attains the maximum, the
coordinatewise derivative of `Value` equals the `Gradient` component on
the maximal axis's two coordinates and `0` on every other coordinate —
so `Gradient` is a subgradient selection, not the derivative of `Value`,
on non-maximal axes (see the counterexample). -/
theorem gradient_selection_and_derivative (f : AnalyticalPointMassValueFunction ℝ)
    (s : Fin 6 → ℝ) :
    (∀ d : Fin 3,
        f.Gradient s (posIdx d) = (if f.vA s d > f.vB s d then -1 else 1) ∧
        f.Gradient s (velIdx d) =
          (if f.vA s d > f.vB s d
           then (s (velIdx d) - f.max_planner_speed d) / (f.a_max d - f.d_a d)
           else (s (velIdx d) + f.max_planner_speed d) / (f.a_max d - f.d_a d)))
  ∧ (∀ a : Fin 3, (∀ d : Fin 3, f.vA s d ≠ f.vB s d) →
      (∀ d : Fin 3, d ≠ a → f.axisValue s d < f.axisValue s a) →
      ∀ j : Fin 6,
        HasDerivAt (fun t => f.Value (Function.update s j t))
          (if j = posIdx a ∨ j = velIdx a then f.Gradient s j else 0) (s j)) := by
  refine ⟨fun d => gradient_formula f s d, fun a hstrict hmax j => ?_⟩
  by_cases hj : j = posIdx a ∨ j = velIdx a
  · rw [if_pos hj]
    have hupd : Function.update s j (s j) = s := Function.update_eq_self j s
    rcases hj with rfl | rfl
    · have hDa : HasDerivAt (fun t => f.vA (Function.update s (posIdx a) t) a) (-1)
          (s (posIdx a)) := hasDerivAt_vA_pos f s a _
      have hDb : HasDerivAt (fun t => f.vB (Function.update s (posIdx a) t) a) 1
          (s (posIdx a)) := hasDerivAt_vB_pos f s a _
      have hcont : ContinuousAt
          (fun t => f.axisValue (Function.update s (posIdx a) t) a) (s (posIdx a)) :=
        hDa.continuousAt.max hDb.continuousAt
      have hevAxis := eventually_value_eq_axis f s a (posIdx a) (Or.inl rfl) hmax hcont
      rcases (hstrict a).lt_or_lt with hAB | hBA
      · have hevS : ∀ᶠ t in 𝓝 (s (posIdx a)),
            f.axisValue (Function.update s (posIdx a) t) a =
              f.vB (Function.update s (posIdx a) t) a := by
          have hlt : (fun t => f.vA (Function.update s (posIdx a) t) a) (s (posIdx a)) <
              (fun t => f.vB (Function.update s (posIdx a) t) a) (s (posIdx a)) := by
            show f.vA (Function.update s (posIdx a) (s (posIdx a))) a <
              f.vB (Function.update s (posIdx a) (s (posIdx a))) a
            rw [hupd]; exact hAB
          exact (hDa.continuousAt.eventually_lt hDb.continuousAt hlt).mono
            (fun t ht => max_eq_right ht.le)
        have hEv := hevAxis.and hevS
        have hgrad : f.Gradient s (posIdx a) = 1 := by
          rw [(gradient_formula f s a).1, if_neg (lt_asymm hAB)]
        rw [hgrad]
        exact hDb.congr_of_eventuallyEq (hEv.mono (fun t ht => ht.1.trans ht.2))
      · have hevS : ∀ᶠ t in 𝓝 (s (posIdx a)),
            f.axisValue (Function.update s (posIdx a) t) a =
              f.vA (Function.update s (posIdx a) t) a := by
          have hlt : (fun t => f.vB (Function.update s (posIdx a) t) a) (s (posIdx a)) <
              (fun t => f.vA (Function.update s (posIdx a) t) a) (s (posIdx a)) := by
            show f.vB (Function.update s (posIdx a) (s (posIdx a))) a <
              f.vA (Function.update s (posIdx a) (s (posIdx a))) a
            rw [hupd]; exact hBA
          exact (hDb.continuousAt.eventually_lt hDa.continuousAt hlt).mono
            (fun t ht => max_eq_left ht.le)
        have hEv := hevAxis.and hevS
        have hgrad : f.Gradient s (posIdx a) = -1 := by
          rw [(gradient_formula f s a).1, if_pos hBA]
        rw [hgrad]
        exact hDa.congr_of_eventuallyEq (hEv.mono (fun t ht => ht.1.trans ht.2))
    · have hDa : HasDerivAt (fun t => f.vA (Function.update s (velIdx a) t) a)
          ((s (velIdx a) - f.max_planner_speed a) / (f.a_max a - f.d_a a))
          (s (velIdx a)) := hasDerivAt_vA_vel f s a _
      have hDb : HasDerivAt (fun t => f.vB (Function.update s (velIdx a) t) a)
          ((s (velIdx a) + f.max_planner_speed a) / (f.a_max a - f.d_a a))
          (s (velIdx a)) := hasDerivAt_vB_vel f s a _
      have hcont : ContinuousAt
          (fun t => f.axisValue (Function.update s (velIdx a) t) a) (s (velIdx a)) :=
        hDa.continuousAt.max hDb.continuousAt
      have hevAxis := eventually_value_eq_axis f s a (velIdx a) (Or.inr rfl) hmax hcont
      rcases (hstrict a).lt_or_lt with hAB | hBA
      · have hevS : ∀ᶠ t in 𝓝 (s (velIdx a)),
            f.axisValue (Function.update s (velIdx a) t) a =
              f.vB (Function.update s (velIdx a) t) a := by
          have hlt : (fun t => f.vA (Function.update s (velIdx a) t) a) (s (velIdx a)) <
              (fun t => f.vB (Function.update s (velIdx a) t) a) (s (velIdx a)) := by
            show f.vA (Function.update s (velIdx a) (s (velIdx a))) a <
              f.vB (Function.update s (velIdx a) (s (velIdx a))) a
            rw [hupd]; exact hAB
          exact (hDa.continuousAt.eventually_lt hDb.continuousAt hlt).mono
            (fun t ht => max_eq_right ht.le)
        have hEv := hevAxis.and hevS
        have hgrad : f.Gradient s (velIdx a) =
            (s (velIdx a) + f.max_planner_speed a) / (f.a_max a - f.d_a a) := by
          rw [(gradient_formula f s a).2, if_neg (lt_asymm hAB)]
        rw [hgrad]
        exact hDb.congr_of_eventuallyEq (hEv.mono (fun t ht => ht.1.trans ht.2))
      · have hevS : ∀ᶠ t in 𝓝 (s (velIdx a)),
            f.axisValue (Function.update s (velIdx a) t) a =
              f.vA (Function.update s (velIdx a) t) a := by
          have hlt : (fun t => f.vB (Function.update s (velIdx a) t) a) (s (velIdx a)) <
              (fun t => f.vA (Function.update s (velIdx a) t) a) (s (velIdx a)) := by
            show f.vB (Function.update s (velIdx a) (s (velIdx a))) a <
              f.vA (Function.update s (velIdx a) (s (velIdx a))) a
            rw [hupd]; exact hBA
          exact (hDb.continuousAt.eventually_lt hDa.continuousAt hlt).mono
            (fun t ht => max_eq_left ht.le)
        have hEv := hevAxis.and hevS
        have hgrad : f.Gradient s (velIdx a) =
            (s (velIdx a) - f.max_planner_speed a) / (f.a_max a - f.d_a a) := by
          rw [(gradient_formula f s a).2, if_pos hBA]
        rw [hgrad]
        exact hDa.congr_of_eventuallyEq (hEv.mono (fun t ht => ht.1.trans ht.2))
  · rw [if_neg hj]
    exact value_locally_const_off_max_axis f s a j hj hmax

/-- Witness for C7: at the state with positions `(2/5, 1/10, 1/10)` and
zero velocities, the braking surface is strictly active on axis 0, axis
0 strictly attains the maximum, and along axis 0's position coordinate
`Value` has derivative equal to the `Gradient` component. -/
theorem gradient_selection_and_derivative_witness :
    ((vfStd ℝ).vA (mkState (2/5) (1/10) (1/10) 0 0 0) 0 ≠
      (vfStd ℝ).vB (mkState (2/5) (1/10) (1/10) 0 0 0) 0)
  ∧ ((vfStd ℝ).axisValue (mkState (2/5) (1/10) (1/10) 0 0 0) 1 <
      (vfStd ℝ).axisValue (mkState (2/5) (1/10) (1/10) 0 0 0) 0)
  ∧ HasDerivAt
      (fun t => (vfStd ℝ).Value
        (Function.update (mkState (2/5) (1/10) (1/10) 0 0 0) (posIdx 0) t))
      (if posIdx 0 = posIdx 0 ∨ posIdx 0 = velIdx 0
       then (vfStd ℝ).Gradient (mkState (2/5) (1/10) (1/10) 0 0 0) (posIdx 0) else 0)
      (mkState (2/5) (1/10) (1/10) 0 0 0 (posIdx 0)) := by
  obtain ⟨hA0, hB0, hA1, hB1, hA2, hB2⟩ := sGrad_surfaces
  have hstrict : ∀ d : Fin 3, (vfStd ℝ).vA (mkState (2/5) (1/10) (1/10) 0 0 0) d ≠
      (vfStd ℝ).vB (mkState (2/5) (1/10) (1/10) 0 0 0) d := by
    intro d
    fin_cases d
    · show (vfStd ℝ).vA (mkState (2/5) (1/10) (1/10) 0 0 0) 0 ≠
        (vfStd ℝ).vB (mkState (2/5) (1/10) (1/10) 0 0 0) 0
      rw [hA0, hB0]; norm_num
    · show (vfStd ℝ).vA (mkState (2/5) (1/10) (1/10) 0 0 0) 1 ≠
        (vfStd ℝ).vB (mkState (2/5) (1/10) (1/10) 0 0 0) 1
      rw [hA1, hB1]; norm_num
    · show (vfStd ℝ).vA (mkState (2/5) (1/10) (1/10) 0 0 0) 2 ≠
        (vfStd ℝ).vB (mkState (2/5) (1/10) (1/10) 0 0 0) 2
      rw [hA2, hB2]; norm_num
  have hmax : ∀ d : Fin 3, d ≠ 0 →
      (vfStd ℝ).axisValue (mkState (2/5) (1/10) (1/10) 0 0 0) d <
      (vfStd ℝ).axisValue (mkState (2/5) (1/10) (1/10) 0 0 0) 0 := by
    intro d hd
    fin_cases d
    · exact absurd rfl hd
    · show (vfStd ℝ).axisValue (mkState (2/5) (1/10) (1/10) 0 0 0) 1 <
        (vfStd ℝ).axisValue (mkState (2/5) (1/10) (1/10) 0 0 0) 0
      rw [axisValue, axisValue, hA0, hB0, hA1, hB1]
      norm_num
    · show (vfStd ℝ).axisValue (mkState (2/5) (1/10) (1/10) 0 0 0) 2 <
        (vfStd ℝ).axisValue (mkState (2/5) (1/10) (1/10) 0 0 0) 0
      rw [axisValue, axisValue, hA0, hB0, hA2, hB2]
      norm_num
  exact ⟨hstrict 0, hmax 1 (by decide),
    (gradient_selection_and_derivative (vfStd ℝ)
      (mkState (2/5) (1/10) (1/10) 0 0 0)).2 0 hstrict hmax (posIdx 0)⟩

/-- Counterexample to C7 as stated: at a state satisfying all of the
claim's strictness hypotheses, `Gradient` writes `1` into the position
slot of (non-maximal) axis 1, yet `Value` is locally constant along that
coordinate — its derivative there is `0`, so `Gradient` is not the
derivative of `Value`. -/
theorem gradient_not_derivative_off_axis :
    ((vfStd ℝ).vA (mkState (2/5) (1/10) (1/10) 0 0 0) 1 ≠
      (vfStd ℝ).vB (mkState (2/5) (1/10) (1/10) 0 0 0) 1)
  ∧ ((vfStd ℝ).axisValue (mkState (2/5) (1/10) (1/10) 0 0 0) 1 <
      (vfStd ℝ).axisValue (mkState (2/5) (1/10) (1/10) 0 0 0) 0)
  ∧ (vfStd ℝ).Gradient (mkState (2/5) (1/10) (1/10) 0 0 0) (posIdx 1) = 1
  ∧ ¬ HasDerivAt
      (fun t => (vfStd ℝ).Value
        (Function.update (mkState (2/5) (1/10) (1/10) 0 0 0) (posIdx 1) t))
      ((vfStd ℝ).Gradient (mkState (2/5) (1/10) (1/10) 0 0 0) (posIdx 1))
      (mkState (2/5) (1/10) (1/10) 0 0 0 (posIdx 1)) := by
  obtain ⟨hA0, hB0, hA1, hB1, hA2, hB2⟩ := sGrad_surfaces
  have hmax : ∀ d : Fin 3, d ≠ 0 →
      (vfStd ℝ).axisValue (mkState (2/5) (1/10) (1/10) 0 0 0) d <
      (vfStd ℝ).axisValue (mkState (2/5) (1/10) (1/10) 0 0 0) 0 := by
    intro d hd
    fin_cases d
    · exact absurd rfl hd
    · show (vfStd ℝ).axisValue (mkState (2/5) (1/10) (1/10) 0 0 0) 1 <
        (vfStd ℝ).axisValue (mkState (2/5) (1/10) (1/10) 0 0 0) 0
      rw [axisValue, axisValue, hA0, hB0, hA1, hB1]
      norm_num
    · show (vfStd ℝ).axisValue (mkState (2/5) (1/10) (1/10) 0 0 0) 2 <
        (vfStd ℝ).axisValue (mkState (2/5) (1/10) (1/10) 0 0 0) 0
      rw [axisValue, axisValue, hA0, hB0, hA2, hB2]
      norm_num
  have hgrad : (vfStd ℝ).Gradient (mkState (2/5) (1/10) (1/10) 0 0 0) (posIdx 1) = 1 := by
    rw [(gradient_formula (vfStd ℝ) (mkState (2/5) (1/10) (1/10) 0 0 0) 1).1,
      if_neg (by rw [hA1, hB1]; norm_num)]
  refine ⟨by rw [hA1, hB1]; norm_num, hmax 1 (by decide), hgrad, fun h => ?_⟩
  have h0 := value_locally_const_off_max_axis (vfStd ℝ)
    (mkState (2/5) (1/10) (1/10) 0 0 0) 0 (posIdx 1) (by decide) hmax
  have huniq := h.unique h0
  rw [hgrad] at huniq
  norm_num at huniq

end Claims

end Tracking
